import Mathlib

/-!
Verification of the control-flow gridworld / StarCraft macro-management
repository.  Python source files are shallowly embedded as Lean
definitions: pure functions become Lean functions, the coroutine-based
generators become explicit state-passing step functions, Python `Counter`
objects become functions with default value `0`, Python dictionaries
become association lists, and code that can raise becomes `Except`-valued.
-/

namespace Env

/-- World-object and behavior string constants from the `Env` class
(`env.py`).  `wood`, `gold`, `iron` are the items; `merchant`, `water`,
`wall`, `bridge`, `agent` the terrain; `mine`, `sell`, `goto` the
behaviors. -/
def wood : String := "wood"

def gold : String := "gold"

def iron : String := "iron"

def merchant : String := "merchant"

def bridge : String := "=bridge"

def water : String := "stream"

def wall : String := "#wall"

def agent : String := "Agent"

def mine : String := "mine"

def sell : String := "sell"

def goto : String := "goto"

def items : List String := [wood, gold, iron]

def behaviors : List String := [mine, sell, goto]

/-- The instruction-line vocabulary imported by `env.py` from `lines`
(`Subtask`, `Padding`, `While`, `If`, `EndWhile`, `Else`, `EndIf`,
`Loop`, `EndLoop`).  A `Subtask` carries a `(behavior, resource)` pair,
`If`/`While` carry a resource identifier, `Loop` carries an iteration
count; the remaining variants carry no meaningful payload (the Python
code instantiates them with a dummy `0`). -/
inductive Line where
  | Subtask (behavior resource : String)
  | Padding
  | If (resource : String)
  | Else
  | EndIf
  | While (resource : String)
  | EndWhile
  | Loop (n : Int)
  | EndLoop
deriving DecidableEq, Repr

/-- A Python `Counter[str]`: total function with default `0`. -/
def Counts : Type := String → Int

/-- `objective(interaction, obj)` from `env.py`: the tile a behavior must
be performed on — the merchant for `sell`, the literal object otherwise. -/
def objective (interaction obj : String) : String :=
  if interaction = sell then merchant else obj

/-- `Env.evaluate_line(line, counts, loops)` (`env.py` lines 290-306).
Returns `.ok none` when the line is `None` or a non-conditional line
(Python falls through returning `None`); for `Loop` compares the
remaining-loop counter with `0` (Python raises `TypeError` when
`self.loops` is `None`, embedded as `.error ()`); for `If`/`While`
compares two resource counts chosen by the line's resource, with the
`one_condition` flag forcing the iron/gold comparison; any other
resource raises `RuntimeError`, embedded as `.error ()`. -/
def evaluateLine (oneCondition : Bool) (line : Option Line) (counts : Counts)
    (loops : Option Int) : Except Unit (Option Bool) :=
  match line with
  | none => .ok none
  | some l =>
    match l with
    | .Loop _ =>
      match loops with
      | some k => .ok (some (decide (k > 0)))
      | none => .error ()
    | .If r | .While r =>
      if oneCondition then .ok (some (decide (counts iron > counts gold)))
      else if r = iron then .ok (some (decide (counts iron > counts gold)))
      else if r = gold then .ok (some (decide (counts gold > counts merchant)))
      else if r = wood then .ok (some (decide (counts merchant > counts iron)))
      else .error ()
    | _ => .ok none

/-- The low-level action vocabulary: a behavior string or a relative
move, as produced by `lower_level_actions` in `Env.__init__`
(`env.py` lines 207-213). -/
inductive LowerAction where
  | act (behavior : String)
  | move (di dj : Int)
deriving DecidableEq, Repr

/-- `lower_level_actions` (`env.py` lines 207-213): first the three
behaviors, then `np.array([i, j])` for every `i` and `j` in
`range(-1, 2)` — all nine deltas, in row-major order. -/
def lowerLevelActions : List LowerAction :=
  behaviors.map .act ++
    ([-1, 0, 1] : List Int).flatMap (fun i =>
      ([-1, 0, 1] : List Int).map (fun j => .move i j))

end Env

/-- C3: for If/While lines `evaluate_line` compares `counts[iron] >
counts[gold]` whenever `one_condition` is set, and otherwise dispatches
on the line's resource — iron ↦ `iron > gold`, gold ↦ `gold >
merchant`, wood ↦ `merchant > iron`, any other resource a fatal
internal error; a Loop line evaluates to true iff the remaining loop
counter is positive. -/
theorem evaluate_line_cases (counts : Env.Counts) (loops : Option Int)
    (r : String) (k n : Int) :
    (Env.evaluateLine true (some (.If r)) counts loops
        = .ok (some (decide (counts Env.iron > counts Env.gold)))) ∧
    (Env.evaluateLine true (some (.While r)) counts loops
        = .ok (some (decide (counts Env.iron > counts Env.gold)))) ∧
    (Env.evaluateLine false (some (.If Env.iron)) counts loops
        = .ok (some (decide (counts Env.iron > counts Env.gold)))) ∧
    (Env.evaluateLine false (some (.If Env.gold)) counts loops
        = .ok (some (decide (counts Env.gold > counts Env.merchant)))) ∧
    (Env.evaluateLine false (some (.If Env.wood)) counts loops
        = .ok (some (decide (counts Env.merchant > counts Env.iron)))) ∧
    (Env.evaluateLine false (some (.While Env.iron)) counts loops
        = .ok (some (decide (counts Env.iron > counts Env.gold)))) ∧
    (Env.evaluateLine false (some (.While Env.gold)) counts loops
        = .ok (some (decide (counts Env.gold > counts Env.merchant)))) ∧
    (Env.evaluateLine false (some (.While Env.wood)) counts loops
        = .ok (some (decide (counts Env.merchant > counts Env.iron)))) ∧
    (r ≠ Env.iron → r ≠ Env.gold → r ≠ Env.wood →
        Env.evaluateLine false (some (.If r)) counts loops = .error ()) ∧
    (r ≠ Env.iron → r ≠ Env.gold → r ≠ Env.wood →
        Env.evaluateLine false (some (.While r)) counts loops = .error ()) ∧
    (∀ b : Bool, Env.evaluateLine b (some (.Loop k)) counts (some n)
        = .ok (some (decide (n > 0)))) := by
  refine ⟨rfl, rfl, rfl, ?_, ?_, rfl, ?_, ?_, ?_, ?_, ?_⟩
  · simp [Env.evaluateLine, Env.iron, Env.gold]
  · simp [Env.evaluateLine, Env.iron, Env.gold, Env.wood]
  · simp [Env.evaluateLine, Env.iron, Env.gold]
  · simp [Env.evaluateLine, Env.iron, Env.gold, Env.wood]
  · intro h1 h2 h3
    simp [Env.evaluateLine, h1, h2, h3]
  · intro h1 h2 h3
    simp [Env.evaluateLine, h1, h2, h3]
  · intro b
    cases b <;> rfl

/-- Witness for `evaluate_line_cases`: instantiated at a concrete counts
function and the resource `"stream"`, which is none of iron/gold/wood,
so the error branches fire. -/
theorem evaluate_line_cases_witness :
    Env.evaluateLine false (some (.If "stream")) (fun _ => 3) (some 2)
      = .error () := by
  have h := evaluate_line_cases (fun _ => 3) (some 2) "stream" 1 2
  exact h.2.2.2.2.2.2.2.2.1 (by decide) (by decide) (by decide)

/-- C9 counterexample: the low-level action vocabulary has 12 entries,
not 11, and it does contain the stay move `(0, 0)`. -/
theorem lower_level_actions_counterexample :
    Env.lowerLevelActions.length = 12 ∧
      Env.LowerAction.move 0 0 ∈ Env.lowerLevelActions := by
  constructor
  · rfl
  · decide

/-- C9 amended: the low-level action vocabulary consists of exactly the
3 behavior labels (mine, sell, goto) followed by all 9 relative moves
in `{-1,0,1} × {-1,0,1}` including the stay move `(0,0)` — 12 actions
in total. -/
theorem lower_level_actions_amended :
    Env.lowerLevelActions =
      [.act Env.mine, .act Env.sell, .act Env.goto,
       .move (-1) (-1), .move (-1) 0, .move (-1) 1,
       .move 0 (-1), .move 0 0, .move 0 1,
       .move 1 (-1), .move 1 0, .move 1 1] := by
  rfl

namespace Env

/-- Forward scan for a matching closer.  Walks the list suffix keeping a
nesting depth: `opens` increments it, `closes` at depth 0 is the match
(otherwise decrements), and a `mids` line at depth 0 also matches (used
for the `Else` of an `If`). -/
def matchForwardAux (opens closes mids : Line → Bool) :
    List Line → ℕ → ℕ → Option ℕ
  | [], _, _ => none
  | l :: rest, idx, depth =>
    if closes l then
      if depth = 0 then some idx
      else matchForwardAux opens closes mids rest (idx + 1) (depth - 1)
    else if mids l && depth = 0 then some idx
    else if opens l then matchForwardAux opens closes mids rest (idx + 1) (depth + 1)
    else matchForwardAux opens closes mids rest (idx + 1) (depth + 1 - 1)

/-- Backward scan for a matching opener, over the reversed prefix. -/
def matchBackwardAux (opens closes : Line → Bool) :
    List Line → ℕ → ℕ → Option ℕ
  | [], _, _ => none
  | l :: rest, idx, depth =>
    if opens l then
      if depth = 0 then some idx
      else matchBackwardAux opens closes rest (idx - 1) (depth - 1)
    else if closes l then matchBackwardAux opens closes rest (idx - 1) (depth + 1)
    else matchBackwardAux opens closes rest (idx - 1) depth

def isIfLine : Line → Bool
  | .If _ => true
  | _ => false

def isElseLine : Line → Bool
  | .Else => true
  | _ => false

def isEndIfLine : Line → Bool
  | .EndIf => true
  | _ => false

def isWhileLine : Line → Bool
  | .While _ => true
  | _ => false

def isEndWhileLine : Line → Bool
  | .EndWhile => true
  | _ => false

def isLoopLine : Line → Bool
  | .Loop _ => true
  | _ => false

def isEndLoopLine : Line → Bool
  | .EndLoop => true
  | _ => false

def isSubtaskLine : Line → Bool
  | .Subtask _ _ => true
  | _ => false

def matchForward (lines : List Line) (i : ℕ) (opens closes mids : Line → Bool) :
    Option ℕ :=
  matchForwardAux opens closes mids (lines.drop (i + 1)) (i + 1) 0

def matchBackward (lines : List Line) (i : ℕ) (opens closes : Line → Bool) :
    Option ℕ :=
  matchBackwardAux opens closes (lines.take i).reverse (i - 1) 0

/-- Modelled from the spec: `Line.transitions` lives in the `lines`
module, which is not under src/ (only `env.py` imports it).  Per the
spec, each line yields the edges indexed by the evaluation bit
(`line_transitions[i][evaluation]`, `False` ↦ first, `True` ↦ second):
an `If` branches to its `Else` (if present) or `EndIf` on false and
falls through on true; an `Else` (reached by falling out of a true
`If`-body, where the generator negates the stored evaluation) branches
to its `EndIf` on false and into its body on true; a `While` branches
past its matching `EndWhile` on false and into its body on true;
`EndWhile` branches back to its owning `While`; a `Loop` falls into its
body on true and branches past its `EndLoop` on false; `EndLoop`
branches back to its `Loop`; `Subtask`, `Padding` and `EndIf` fall
through unconditionally.  We return the `(false, true)` target pair;
unconditional lines repeat one target.  A missing match (malformed
program) is modelled as jumping past the end. -/
def transitions (lines : List Line) (i : ℕ) : ℕ × ℕ :=
  match lines.get? i with
  | some (.If _) =>
    ((matchForward lines i isIfLine isEndIfLine isElseLine).getD lines.length, i + 1)
  | some .Else =>
    ((matchForward lines i isIfLine isEndIfLine (fun _ => false)).getD lines.length,
      i + 1)
  | some (.While _) =>
    (((matchForward lines i isWhileLine isEndWhileLine (fun _ => false)).map
        (· + 1)).getD lines.length, i + 1)
  | some .EndWhile =>
    let w := (matchBackward lines i isWhileLine isEndWhileLine).getD lines.length
    (w, w)
  | some (.Loop _) =>
    (((matchForward lines i isLoopLine isEndLoopLine (fun _ => false)).map
        (· + 1)).getD lines.length, i + 1)
  | some .EndLoop =>
    let l := (matchBackward lines i isLoopLine isEndLoopLine).getD lines.length
    (l, l)
  | _ => (i + 1, i + 1)

/-- Internal state of the `Env.line_generator` coroutine (`env.py`
lines 931-952): the current position `i` and the stack of stored `If`
evaluations (Python appends/pops at the end of a list; here the head of
the list is the top of the stack). -/
structure LGState where
  i : ℕ
  ifEvals : List Bool
deriving DecidableEq, Repr

/-- The first `next(...)` of `line_generator`: yields `None` if the
program is empty, else index 0. -/
def lineGeneratorStart (lines : List Line) : Option ℕ :=
  if lines.length ≤ 0 then none else some 0

/-- One `send(condition_bit)` of `line_generator` (`env.py` lines
944-952): at an `Else` the evaluation is the negation of the popped
stored `If` evaluation, otherwise `bool(condition_bit)` (with
`bool(None) = False`); an `If` pushes its evaluation; the next position
is `line_transitions[i][evaluation]` and the yielded value is `None`
once the position passes the end of the program. -/
def lineGeneratorSend (lines : List Line) (st : LGState)
    (conditionBit : Option Bool) : Option ℕ × LGState :=
  let cur := lines.get? st.i
  let evaluation :=
    match cur with
    | some .Else => !(st.ifEvals.headD false)
    | _ => conditionBit.getD false
  let stack1 :=
    match cur with
    | some .Else => st.ifEvals.tail
    | _ => st.ifEvals
  let stack2 :=
    match cur with
    | some (.If _) => evaluation :: stack1
    | _ => stack1
  let t := transitions lines st.i
  let i2 := if evaluation then t.2 else t.1
  (if lines.length ≤ i2 then none else some i2, ⟨i2, stack2⟩)

/-- Configuration fields of `Env` consumed by `feasible`.  The Python
code draws `self.random.random() < self.reject_while_prob` once per
`While` visit (the `all(...)` tuple is built eagerly); `rejectDraws k`
is the outcome of the `k`-th such draw. -/
structure FeasConfig where
  oneCondition : Bool
  evaluating : Bool
  longJump : Bool
  rejectDraws : ℕ → Bool
  maxWhileLoops : ℕ

/-- The local variables of `Env.feasible`'s loop (`env.py` lines
308-359): the current line index (`None` = program complete), the line
generator state, and the `loops`/`whiles`/`inventory`/`counts` counters,
plus the number of random draws consumed so far. -/
structure FeasState where
  line : Option ℕ
  lg : LGState
  loops : Int
  whiles : ℕ
  inventory : Counts
  counts : Counts
  draws : ℕ

/-- Add `delta` to one key of a counter. -/
def bump (c : Counts) (key : String) (delta : Int) : Counts :=
  fun x => if x = key then c x + delta else c x

/-- Counter over a list of object labels. -/
def countsOf (objects : List String) : Counts :=
  fun o => (objects.countP (fun x => x = o) : ℤ)

/-- The `required` set of a subtask in `feasible`: `{merchant,
resource}` for a sell, `{resource}` otherwise. -/
def subtaskRequired (behavior resource : String) : List String :=
  if behavior = sell then [merchant, resource] else [resource]

/-- The check `for r in required: if counts[r] <= (1 if r == self.wood
else 0): return False` — true iff some required resource is below its
threshold (wood needs a count above 1, everything else above 0). -/
def requiredFails (counts : Counts) (required : List String) : Bool :=
  required.any (fun r => decide (counts r ≤ if r = wood then 1 else 0))

/-- Python `not x` on the `Optional[bool]` result of `evaluate_line`. -/
def notPy : Option Bool → Bool
  | some b => !b
  | none => true

/-- Result of one iteration of `feasible`'s while-loop: either the
function returns, or the loop continues in a new state. -/
inductive FeasStep where
  | done (r : Except Unit Bool)
  | next (s : FeasState)

/-- The per-line-type branch of `feasible`'s loop body (`env.py` lines
318-353), up to but excluding the common `evaluation`/`send` tail.  The
Python test `behavior in self.sell` is substring containment, which for
the three behavior strings coincides with equality to `"sell"`. -/
def feasibleBranch (cfg : FeasConfig) (l : Line) (s : FeasState) : FeasStep :=
  match l with
  | .Subtask b r =>
    if requiredFails s.counts (subtaskRequired b r) then .done (.ok false)
    else if b = sell then
      if s.inventory r = 0 then
        -- collect from environment
        .next { s with counts := bump s.counts r (-1),
                       inventory := bump (bump s.inventory r 1) r (-1) }
      else .next { s with inventory := bump s.inventory r (-1) }
    else if b = mine then
      .next { s with counts := bump s.counts r (-1),
                     inventory := bump s.inventory r 1 }
    else .next s
  | .Loop _ => .next { s with loops := s.loops + 1 }
  | .While _ =>
    match evaluateLine cfg.oneCondition (some l) s.counts (some s.loops) with
    | .error e => .done (.error e)
    | .ok ev =>
      if decide (s.whiles = 0) && notPy ev && !cfg.evaluating
          && cfg.rejectDraws s.draws then .done (.ok false)
      else
        let whiles2 := s.whiles + 1
        if cfg.maxWhileLoops < whiles2 then .done (.ok false)
        else .next { s with whiles := whiles2, draws := s.draws + 1 }
  | _ => .next s

/-- One full iteration of `feasible`'s loop: the type branch, then the
common `evaluation = evaluate_line(...)`, the `long_jump` early
rejection, and `line = line_iterator.send(evaluation)`. -/
def feasibleStep (cfg : FeasConfig) (lines : List Line) (s : FeasState) :
    FeasStep :=
  match s.line with
  | none => .done (.ok true)
  | some li =>
    match lines.get? li with
    | none => .done (.error ())
    | some l =>
      match feasibleBranch cfg l s with
      | .done r => .done r
      | .next s2 =>
        match evaluateLine cfg.oneCondition (some l) s2.counts (some s2.loops) with
        | .error e => .done (.error e)
        | .ok ev =>
          if (ev == some true) && cfg.longJump then .done (.ok false)
          else
            let r := lineGeneratorSend lines s2.lg ev
            .next { s2 with line := r.1, lg := r.2 }

/-- Fuel-indexed iteration of `feasibleStep`; `none` = out of fuel
(`feasible` can loop forever on a `Loop` whose body consumes nothing,
since its `loops` counter only ever increments there). -/
def feasibleAux (cfg : FeasConfig) (lines : List Line) :
    ℕ → FeasState → Option (Except Unit Bool)
  | 0, _ => none
  | fuel + 1, s =>
    match feasibleStep cfg lines s with
    | .done r => some r
    | .next s2 => feasibleAux cfg lines fuel s2

/-- Initial state of `Env.feasible(objects, lines)`. -/
def feasibleInit (objects : List String) (lines : List Line) : FeasState :=
  { line := lineGeneratorStart lines, lg := ⟨0, []⟩, loops := 0, whiles := 0,
    inventory := fun _ => 0, counts := countsOf objects, draws := 0 }

/-- `Env.feasible(objects, lines)` as a fuel-indexed function. -/
def feasible (cfg : FeasConfig) (objects : List String) (lines : List Line)
    (fuel : ℕ) : Option (Except Unit Bool) :=
  feasibleAux cfg lines fuel (feasibleInit objects lines)

/-- Reachability between loop states of `feasible`. -/
def FeasReaches (cfg : FeasConfig) (lines : List Line) :
    FeasState → FeasState → Prop :=
  Relation.ReflTransGen (fun s s2 => feasibleStep cfg lines s = .next s2)

/-- A concrete configuration with everything disabled, used for the
concrete `feasible` examples. -/
def plainFeasConfig : FeasConfig :=
  { oneCondition := false, evaluating := false, longJump := false,
    rejectDraws := fun _ => false, maxWhileLoops := 3 }

end Env

/-- If the current line of `feasible`'s loop is a subtask requiring wood
while the accounted wood count is at most 1, the loop returns `False`
immediately. -/
theorem feasibleStep_wood_short (cfg : Env.FeasConfig) (lines : List Env.Line)
    (s : Env.FeasState) (li : ℕ) (b r : String)
    (h1 : s.line = some li)
    (h2 : lines.get? li = some (.Subtask b r))
    (hw : Env.wood ∈ Env.subtaskRequired b r)
    (hc : s.counts Env.wood ≤ 1) :
    Env.feasibleStep cfg lines s = .done (.ok false) := by
  have hfail : Env.requiredFails s.counts (Env.subtaskRequired b r) = true := by
    apply List.any_eq_true.mpr
    refine ⟨Env.wood, hw, ?_⟩
    simp [hc]
  simp only [Env.feasibleStep, h1, h2, Env.feasibleBranch, hfail]
  simp

/-- C2: during the resource-accounting replay of `feasible`, reaching
any subtask that requires wood while the accounted wood count is ≤ 1
makes the whole check fail (it can never return `True`), the threshold
is 1 exactly for wood and 0 for every other required resource or the
merchant, and concretely the one-line program `[Subtask(mine, wood)]`
is rejected against exactly one wood tile but accepted against two. -/
theorem feasible_wood_buffer :
    (∀ (cfg : Env.FeasConfig) (lines : List Env.Line) (s0 s : Env.FeasState)
        (li : ℕ) (b r : String),
        Env.FeasReaches cfg lines s0 s →
        s.line = some li →
        lines.get? li = some (.Subtask b r) →
        Env.wood ∈ Env.subtaskRequired b r →
        s.counts Env.wood ≤ 1 →
        ∀ fuel, Env.feasibleAux cfg lines fuel s0 ≠ some (.ok true)) ∧
    (∀ (c : Env.Counts) (req : List String),
        Env.requiredFails c req = false ↔
          ∀ x ∈ req, (if x = Env.wood then 1 else 0) < c x) ∧
    Env.feasible Env.plainFeasConfig [Env.wood]
        [.Subtask Env.mine Env.wood] 5 = some (.ok false) ∧
    Env.feasible Env.plainFeasConfig [Env.wood, Env.wood]
        [.Subtask Env.mine Env.wood] 5 = some (.ok true) := by
  refine ⟨?_, ?_, rfl, rfl⟩
  · intro cfg lines s0 s li b r hreach h1 h2 hw hc
    induction hreach using Relation.ReflTransGen.head_induction_on with
    | refl =>
      intro fuel
      match fuel with
      | 0 => simp [Env.feasibleAux]
      | fuel + 1 =>
        simp only [Env.feasibleAux,
          feasibleStep_wood_short cfg lines s li b r h1 h2 hw hc]
        simp
    | head hstep _ ih =>
      intro fuel
      match fuel with
      | 0 => simp [Env.feasibleAux]
      | fuel + 1 =>
        simp only [Env.feasibleAux, hstep]
        exact ih fuel
  · intro c req
    rw [← Bool.not_eq_true]
    unfold Env.requiredFails
    rw [List.any_eq_true]
    push_neg
    constructor
    · intro h x hx
      have := h x hx
      simpa [not_le] using this
    · intro h x hx
      simpa [not_le] using h x hx

/-- Witness for `feasible_wood_buffer`: its first component applied at
the initial state of the concrete one-wood example, using the reflexive
reachability. -/
theorem feasible_wood_buffer_witness :
    Env.feasibleAux Env.plainFeasConfig [.Subtask Env.mine Env.wood] 5
        (Env.feasibleInit [Env.wood] [.Subtask Env.mine Env.wood])
      ≠ some (.ok true) :=
  feasible_wood_buffer.1 Env.plainFeasConfig [.Subtask Env.mine Env.wood]
    (Env.feasibleInit [Env.wood] [.Subtask Env.mine Env.wood])
    (Env.feasibleInit [Env.wood] [.Subtask Env.mine Env.wood])
    0 Env.mine Env.wood Relation.ReflTransGen.refl (by decide) (by decide)
    (by decide) (by decide) 5

namespace Env

/-- Configuration fields of `Env` consumed by `state_generator` and its
inner `next_subtask` helper. -/
structure EnvCfg where
  oneCondition : Bool
  maxWhileLoops : ℕ
  termOn : List String
  temporalExtension : Bool
  lowerLevel : String
  timeToWaste : Int
  evaluating : Bool
  worldSize : ℕ

/-- The world object map: coordinates to object labels (Python dict). -/
def ObjectMap : Type := List ((Int × Int) × String)

def objLookup (objects : ObjectMap) (p : Int × Int) : Option String :=
  List.lookup p objects

def objDelete (objects : ObjectMap) (p : Int × Int) : ObjectMap :=
  List.filter (fun q => !(q.1 == p)) objects

def objValues (objects : ObjectMap) : List String :=
  List.map Prod.snd objects

/-- `Env.count_objects`: counter over the values of the object map. -/
def countObjects (objects : ObjectMap) : Counts :=
  fun o => ((objValues objects).countP (fun x => x = o) : ℤ)

/-- Set one key of a counter to a fixed value (Python
`inventory[k] = v`). -/
def setCount (c : Counts) (key : String) (v : Int) : Counts :=
  fun x => if x = key then v else c x

/-- `np.clip(x, -1, 1)` on one coordinate. -/
def clipInt (x : Int) : Int := max (-1) (min 1 x)

/-- The `Env` instance variables threaded through `next_subtask`
(`env.py` lines 410-439): the line-generator state, `self.loops`,
`self.whiles` and `self.time_remaining`. -/
structure NSState where
  lg : LGState
  loops : Option Int
  whiles : ℕ
  timeRemaining : Int
deriving DecidableEq, Repr

/-- Result of the else-branch of one iteration of `next_subtask`'s
loop: an early `return None` (the While re-entry bound was exceeded), a
continuation with the newly yielded line, or a Python exception. -/
inductive NSBranch where
  | retNone (st : NSState)
  | cont (l : Option ℕ) (st : NSState)
  | err

/-- Outcome of a whole `next_subtask` call. -/
inductive NSOut where
  | result (l : Option ℕ) (st : NSState)
  | err
  | fuelOut
deriving DecidableEq, Repr

/-- The common tail of `next_subtask`'s else-branch (`env.py` lines
424-429): recompute counts, send the evaluation of the current line
into the line generator, and clear `self.loops` when it reached 0. -/
def nsTail (cfg : EnvCfg) (lines : List Line) (objects : ObjectMap) (i : ℕ)
    (st : NSState) : NSBranch :=
  let counts := countObjects objects
  match evaluateLine cfg.oneCondition (lines.get? i) counts st.loops with
  | .error _ => .err
  | .ok ev =>
    let r := lineGeneratorSend lines st.lg ev
    let loops2 := if st.loops = some 0 then none else st.loops
    .cont r.1 { st with lg := r.2, loops := loops2 }

/-- The else-branch of `next_subtask`'s loop (`env.py` lines 414-429):
a `Loop` line initializes or decrements `self.loops`, a `While` line
increments `self.whiles` and returns `None` once the bound
`max_while_loops` is exceeded; then the common tail runs. -/
def nsStepElse (cfg : EnvCfg) (lines : List Line) (objects : ObjectMap)
    (i : ℕ) (st : NSState) : NSBranch :=
  match lines.get? i with
  | some (.Loop n) =>
    let loops2 : Option Int :=
      match st.loops with
      | none => some n
      | some k => some (k - 1)
    nsTail cfg lines objects i { st with loops := loops2 }
  | some (.While _) =>
    let st1 := { st with whiles := st.whiles + 1 }
    if cfg.maxWhileLoops < st1.whiles then .retNone st1
    else nsTail cfg lines objects i st1
  | _ => nsTail cfg lines objects i st

/-- The post-loop epilogue of `next_subtask` (`env.py` lines 432-439):
`None` stays `None` (the implicit `return None`), a concrete subtask
line replenishes the time budget (`3 * world_size` more ticks, or a
reset to `3 * world_size + time_to_waste` in `"train-alone"` mode). -/
def nsFinish (cfg : EnvCfg) (l : Option ℕ) (st : NSState) : NSOut :=
  match l with
  | some i =>
    let timeDelta : Int := 3 * (cfg.worldSize : ℤ)
    let tr :=
      if cfg.lowerLevel = "train-alone" then timeDelta + cfg.timeToWaste
      else st.timeRemaining + timeDelta
    .result (some i) { st with timeRemaining := tr }
  | none => .result none st

/-- The `while True` loop of `next_subtask` (`env.py` lines 411-431):
on the first iteration of the initial call (`line is None`), the fresh
line iterator is started; otherwise the else-branch runs; the loop
breaks once the current line is `None` or a `Subtask`. -/
def nsLoop (cfg : EnvCfg) (lines : List Line) (objects : ObjectMap) :
    ℕ → Option ℕ → NSState → NSOut
  | 0, _, _ => .fuelOut
  | fuel + 1, l, st =>
    let branch :=
      match l with
      | none => NSBranch.cont (lineGeneratorStart lines) st
      | some i => nsStepElse cfg lines objects i st
    match branch with
    | .retNone st2 => .result none st2
    | .err => .err
    | .cont l2 st2 =>
      match l2 with
      | none => nsFinish cfg none st2
      | some j =>
        if (lines.get? j).any isSubtaskLine then nsFinish cfg (some j) st2
        else nsLoop cfg lines objects fuel (some j) st2

/-- `next_subtask(line)` of `state_generator`. -/
def nextSubtask (cfg : EnvCfg) (lines : List Line) (objects : ObjectMap)
    (fuel : ℕ) (l : Option ℕ) (st : NSState) : NSOut :=
  nsLoop cfg lines objects fuel l st

/-- The local state of the `state_generator` coroutine between yields
(`env.py` lines 394-455): the mutable world, agent position, inventory,
the `prev`/`ptr` program pointers, the sticky `term` flag, the
`subtask_complete` flag, the `next_subtask` bookkeeping, and whether
the episode has been pushed into the failure buffer. -/
structure SGState where
  objects : ObjectMap
  agentPos : Int × Int
  inventory : Counts
  prev : ℕ
  ptr : Option ℕ
  term : Bool
  subtaskComplete : Bool
  ns : NSState
  failureRecorded : Bool

/-- The top of `state_generator`'s yield loop (`env.py` lines 443-446):
`term` is or-ed with the time budget being exactly exhausted (Python
truthiness of the integer `time_remaining`), and a terminal state whose
pointer is still live is recorded into the failure buffer. -/
def preYield (s : SGState) : SGState :=
  let term2 := s.term || (s.ns.timeRemaining == 0)
  { s with term := term2,
           failureRecorded := s.failureRecorded || (term2 && s.ptr.isSome) }

/-- The initialization of `state_generator` (`env.py` lines 397-441) up
to and including its first yield: zero time in `"train-alone"` mode,
200 ticks when evaluating, else `time_to_waste`; then
`ptr = next_subtask(None)`. -/
def stateGenReset (cfg : EnvCfg) (lines : List Line) (objects : ObjectMap)
    (agentPos : Int × Int) (fuel : ℕ) : Option SGState :=
  let tr0 : Int :=
    if cfg.lowerLevel = "train-alone" then 0
    else if cfg.evaluating then 200 else cfg.timeToWaste
  let ns0 : NSState := { lg := ⟨0, []⟩, loops := none, whiles := 0,
                         timeRemaining := tr0 }
  match nextSubtask cfg lines objects fuel none ns0 with
  | .result l st =>
    some (preYield
      { objects := objects, agentPos := agentPos, inventory := fun _ => 0,
        prev := 0, ptr := l, term := false, subtaskComplete := false,
        ns := st, failureRecorded := false })
  | _ => none

/-- The body of `state_generator` between one received action and the
next yield (`env.py` lines 456-534 followed by the loop top).  The
received pair is `(subtask_id, lower_level_index)`; the dead
`interaction, resource` assignments of lines 464-467 (their values are
never read) are omitted.  A behavior action checks `done` against the
current target, applies the mine/sell/goto effects and advances the
pointer through `next_subtask` on completion; a move action applies the
(optionally clipped) delta subject to the wall/water rules.  `none`
models a Python exception (pointer not on a subtask line, or an action
index outside the vocabulary). -/
def stateGenStep (cfg : EnvCfg) (lines : List Line) (fuel : ℕ) (s : SGState)
    (lowerLevelIndex : ℕ) : Option SGState :=
  match s.ptr with
  | none => none
  | some p =>
    match lines.get? p with
    | some (.Subtask tgtInteraction tgtObj) =>
      match lowerLevelActions.get? lowerLevelIndex with
      | none => none
      | some lowerAction =>
        let s1 := { s with subtaskComplete := false,
                           ns := { s.ns with
                                     timeRemaining := s.ns.timeRemaining - 1 } }
        let term1 := s1.term ||
          (!((objValues s1.objects).contains tgtObj) &&
            (!(tgtInteraction == sell) || s1.inventory tgtObj == (0 : ℤ)))
        match lowerAction with
        | .act behavior =>
          let standingOn := objLookup s1.objects s1.agentPos
          let done0 := (behavior == tgtInteraction) &&
            (standingOn == some (objective tgtInteraction tgtObj))
          let afterBranch :=
            if behavior = mine then
              if standingOn.isSome then
                let term2 :=
                  if done0 || ((tgtInteraction == sell) &&
                        (standingOn == some tgtObj)) ||
                      (standingOn == some wood) then term1
                  else if mine ∈ cfg.termOn then true
                  else term1
                let inv2 :=
                  match standingOn with
                  | some o =>
                    if o ∈ items ∧ s1.inventory o = 0 then
                      setCount s1.inventory o 1
                    else s1.inventory
                  | none => s1.inventory
                some ({ s1 with term := term2, inventory := inv2,
                                objects := objDelete s1.objects s1.agentPos },
                      done0)
              else some ({ s1 with term := term1 }, done0)
            else if behavior = sell then
              let done1 := done0 &&
                ((cfg.lowerLevel == "hardcoded") || decide ((0 : ℤ) < s1.inventory tgtObj))
              if done1 then
                some ({ s1 with term := term1,
                                inventory := bump s1.inventory tgtObj (-1) },
                      done1)
              else if sell ∈ cfg.termOn then
                some ({ s1 with term := true }, done1)
              else some ({ s1 with term := term1 }, done1)
            else if behavior = goto then
              if !done0 && decide (goto ∈ cfg.termOn) then
                some ({ s1 with term := true }, done0)
              else some ({ s1 with term := term1 }, done0)
            else some ({ s1 with term := term1 }, done0)
          match afterBranch with
          | none => none
          | some (s2, doneF) =>
            if doneF then
              match nextSubtask cfg lines s2.objects fuel (some p) s2.ns with
              | .result l st2 =>
                some (preYield { s2 with prev := p, ptr := l, ns := st2,
                                         subtaskComplete := true })
              | _ => none
            else some (preYield s2)
        | .move di dj =>
          let d : Int × Int :=
            if cfg.temporalExtension then (clipInt di, clipInt dj) else (di, dj)
          let newPos : Int × Int := (s1.agentPos.1 + d.1, s1.agentPos.2 + d.2)
          let movingInto := objLookup s1.objects newPos
          if 0 ≤ newPos.1 ∧ newPos.1 < (cfg.worldSize : ℤ) ∧
              0 ≤ newPos.2 ∧ newPos.2 < (cfg.worldSize : ℤ) ∧
              (cfg.lowerLevel = "hardcoded" ∨
                (movingInto ≠ some wall ∧
                  (movingInto ≠ some water ∨ (0 : ℤ) < s1.inventory wood))) then
            if movingInto = some water then
              -- build bridge
              some (preYield { s1 with term := term1, agentPos := newPos,
                                       objects := objDelete s1.objects newPos,
                                       inventory := bump s1.inventory wood (-1) })
            else some (preYield { s1 with term := term1, agentPos := newPos })
          else some (preYield { s1 with term := term1 })
    | _ => none

/-- The driver's success computation (`env.py` line 770):
`success = state.ptr is None`, reported as the `success` entry of the
terminal info dict (line 790). -/
def successFlag (ptr : Option ℕ) : Bool := ptr.isNone

/-- Concrete episode for the While-overflow behavior: a one-iteration
budget (`max_while_loops = 1`) on the program
`[While(gold), Subtask((mine, iron)), EndWhile]`. -/
def c1Cfg : EnvCfg :=
  { oneCondition := false, maxWhileLoops := 1, termOn := [],
    temporalExtension := true, lowerLevel := "", timeToWaste := 100,
    evaluating := false, worldSize := 3 }

def c1Lines : List Line := [.While gold, .Subtask mine iron, .EndWhile]

def c1Objects : ObjectMap := [((0, 1), iron), ((2, 2), gold)]

/-- Reset, then one step moving right onto the iron tile, then one
`mine` step that completes the subtask and re-enters the While. -/
def c1Step2 : Option SGState :=
  (stateGenReset c1Cfg c1Lines c1Objects (0, 0) 20).bind fun s0 =>
    (stateGenStep c1Cfg c1Lines 20 s0 8).bind fun s1 =>
      stateGenStep c1Cfg c1Lines 20 s1 0

end Env

/-- C1 counterexample: in the concrete episode `c1Step2` (program
`[While(gold), Subtask((mine, iron)), EndWhile]`, `max_while_loops =
1`, a world in which the While condition holds), completing the subtask
makes the While re-entry counter reach 2, exceeding the bound, so
`next_subtask` returns `None` — and the driver's success flag on that
end-sentinel pointer is `true`, not the `success=False` the claim
asserts. -/
theorem while_overflow_counterexample :
    Env.c1Cfg.maxWhileLoops = 1 ∧
      (Env.c1Step2.map (fun s => (s.ptr, s.ns.whiles, s.subtaskComplete))
        = some (none, 2, true)) ∧
      (Env.c1Step2.map (fun s => Env.successFlag s.ptr) = some true) := by
  refine ⟨rfl, ?_, ?_⟩ <;> rfl

/-- C1 amended: whenever `next_subtask`'s walk reaches a `While` line
after the re-entry counter has already used up the `max_while_loops`
budget, the walk returns pointer `None` (with the counter incremented
past the bound), and the episode driver's `success` flag for an `None`
pointer is `true`: the overflow is reported as a successful
completion, not as a failure. -/
theorem while_overflow_amended (cfg : Env.EnvCfg) (lines : List Env.Line)
    (objects : Env.ObjectMap) (fuel : ℕ) (i : ℕ) (st : Env.NSState)
    (r : String)
    (hline : lines.get? i = some (.While r))
    (hover : cfg.maxWhileLoops < st.whiles + 1) :
    Env.nsLoop cfg lines objects (fuel + 1) (some i) st
        = .result none { st with whiles := st.whiles + 1 } ∧
      Env.successFlag none = true := by
  constructor
  · simp only [Env.nsLoop, Env.nsStepElse, hline]
    simp [hover]
  · rfl

/-- Witness for `while_overflow_amended`: applied at the first line of
the concrete program with the counter already at the bound. -/
theorem while_overflow_amended_witness :
    Env.nsLoop Env.c1Cfg Env.c1Lines [] 1 (some 0) ⟨⟨0, []⟩, none, 1, 50⟩
        = .result none ⟨⟨0, []⟩, none, 2, 50⟩ ∧
      Env.successFlag none = true :=
  while_overflow_amended Env.c1Cfg Env.c1Lines [] 0 0 ⟨⟨0, []⟩, none, 1, 50⟩
    Env.gold rfl (by decide)

namespace Minecraft

/-- The concrete expression classes of `minecraft/data_types.py` that
`Expression.random` can construct: `IncompleteSubtask` (a `Ready`
leaf), the `Unpredicated` composite forms produced by the four
`*.random` constructors, and the two `Sequence` variants produced by
`followed_by` dispatch (`SequenceWithReadyExpr1` from a `Ready`
receiver, `SequenceWithUnpredicatedExpr1` from an `Unpredicated`
receiver).  Every one of these classes is an `IncompleteExpression`
subclass. -/
inductive MCExpr where
  | incompleteSubtask (id : ℕ)
  | seqUnpred1 (expr1 expr2 : MCExpr)
  | seqReady1 (expr1 expr2 : MCExpr)
  | unpredIfCondition (expr : MCExpr)
  | unpredIfElse (expr1 expr2 : MCExpr)
  | unpredWhileLoop (expr : MCExpr)
deriving DecidableEq, Repr

/-- Which of the embedded classes are `ReadyExpression` subclasses (the
rest are `UnpredicatedExpression` subclasses); this decides the
`followed_by` dispatch. -/
def isReadyClass : MCExpr → Bool
  | .incompleteSubtask _ => true
  | .seqReady1 _ _ => true
  | _ => false

/-- Number of lines yielded by `__iter__`: a `Subtask` yields itself; a
`Sequence` yields both parts; `IfCondition`/`WhileLoop` wrap their body
in two marker lines; `IfElseCondition` adds `If`/`Else`/`EndIf`. -/
def lineCount : MCExpr → ℕ
  | .incompleteSubtask _ => 1
  | .seqUnpred1 e1 e2 => lineCount e1 + lineCount e2
  | .seqReady1 e1 e2 => lineCount e1 + lineCount e2
  | .unpredIfCondition e => 2 + lineCount e
  | .unpredIfElse e1 e2 => 3 + lineCount e1 + lineCount e2
  | .unpredWhileLoop e => 2 + lineCount e

/-- Number of `IfElseCondition` nodes in the expression. -/
def countIfElse : MCExpr → ℕ
  | .incompleteSubtask _ => 0
  | .seqUnpred1 e1 e2 => countIfElse e1 + countIfElse e2
  | .seqReady1 e1 e2 => countIfElse e1 + countIfElse e2
  | .unpredIfCondition e => countIfElse e
  | .unpredIfElse e1 e2 => 1 + countIfElse e1 + countIfElse e2
  | .unpredWhileLoop e => countIfElse e

/-- The four `multi_line_expressions` classes, in roster order. -/
inductive GenTy where
  | whileLoop
  | ifCond
  | ifElseCond
  | seq
deriving DecidableEq, Repr

/-- `required_lines()` per class (`WhileLoop`/`IfCondition` = 3,
`IfElseCondition` = 5, `Sequence` = 2). -/
def requiredLines : GenTy → ℕ
  | .whileLoop => 3
  | .ifCond => 3
  | .ifElseCond => 5
  | .seq => 2

mutual
/-- The possible outcomes of `Expression.random(length, rng)` over all
random draws: length 1 always draws a `Subtask` with an id below
`MAX_SUBTASK = 10`; any other length uniformly picks a multi-line class
whose `required_lines()` fits and delegates to its `random`.  (Lengths
for which no class fits make `rng.choice` raise, so they generate
nothing.) -/
inductive Gen : ℕ → MCExpr → Prop where
  | subtask (id : ℕ) (h : id < 10) : Gen 1 (.incompleteSubtask id)
  | multi (t : GenTy) (len : ℕ) (e : MCExpr) (hne : len ≠ 1)
      (hreq : requiredLines t ≤ len) (h : GenFrom t len e) : Gen len e

/-- The possible outcomes of each `cls.random(length, rng)`:
`WhileLoop`/`IfCondition` wrap a recursive generation of `length - 2`
lines; `IfElseCondition` draws `expr1_length = rng.randint(1, length -
3)` (so a value in `{1, ..., length - 4}`) and pairs a generation of
that length with one of `length - expr1_length` lines; `Sequence` draws
`n1 = rng.randint(1, length + 1)` (a value in `{1, ..., length}`) and
joins generations of `n1` and `length - n1` lines with `followed_by`,
whose result class follows the receiver's class. -/
inductive GenFrom : GenTy → ℕ → MCExpr → Prop where
  | whileLoop (len : ℕ) (e : MCExpr) (h : Gen (len - 2) e) :
      GenFrom .whileLoop len (.unpredWhileLoop e)
  | ifCond (len : ℕ) (e : MCExpr) (h : Gen (len - 2) e) :
      GenFrom .ifCond len (.unpredIfCondition e)
  | ifElse (len k : ℕ) (e1 e2 : MCExpr) (h1 : 1 ≤ k) (h2 : k ≤ len - 4)
      (g1 : Gen k e1) (g2 : Gen (len - k) e2) :
      GenFrom .ifElseCond len (.unpredIfElse e1 e2)
  | seqReady (len n1 : ℕ) (e1 e2 : MCExpr) (h1 : 1 ≤ n1) (h2 : n1 ≤ len)
      (g1 : Gen n1 e1) (g2 : Gen (len - n1) e2)
      (hr : isReadyClass e1 = true) :
      GenFrom .seq len (.seqReady1 e1 e2)
  | seqUnpred (len n1 : ℕ) (e1 e2 : MCExpr) (h1 : 1 ≤ n1) (h2 : n1 ≤ len)
      (g1 : Gen n1 e1) (g2 : Gen (len - n1) e2)
      (hr : isReadyClass e1 = false) :
      GenFrom .seq len (.seqUnpred1 e1 e2)
end

/-- Every generated length is at least 1. -/
theorem gen_pos (len : ℕ) (e : MCExpr) (h : Gen len e) : 1 ≤ len := by
  cases h with
  | subtask id hid => exact le_refl 1
  | multi t len e hne hreq hg =>
    cases t <;> simpa using le_trans (by simp [requiredLines]) hreq

/-- The concrete `IfElseCondition.random(5, rng)` outcome with
`expr1_length = 1` (the only possible draw), `expr1` a subtask and
`expr2` the `WhileLoop` around a two-subtask `Sequence`. -/
def c4Expr : MCExpr :=
  .unpredIfElse (.incompleteSubtask 0)
    (.unpredWhileLoop (.seqReady1 (.incompleteSubtask 1) (.incompleteSubtask 2)))

end Minecraft

/-- Every successful generation overshoots the requested length by
exactly 3 lines per `IfElseCondition` node it contains (so it is exact
precisely when no `IfElseCondition` was drawn). -/
theorem gen_line_count (e : Minecraft.MCExpr) :
    ∀ len : ℕ, Minecraft.Gen len e →
      Minecraft.lineCount e = len + 3 * Minecraft.countIfElse e := by
  induction e with
  | incompleteSubtask id =>
    intro len h
    cases h with
    | subtask _ _ => rfl
    | multi t len e hne hreq hg => cases hg
  | seqUnpred1 e1 e2 ih1 ih2 =>
    intro len h
    cases h with
    | multi t len e hne hreq hg =>
      cases hg with
      | seqUnpred len n1 e1 e2 h1 h2 g1 g2 hr =>
        have l1 := ih1 n1 g1
        have l2 := ih2 (len - n1) g2
        simp only [Minecraft.lineCount, Minecraft.countIfElse, l1, l2]
        omega
  | seqReady1 e1 e2 ih1 ih2 =>
    intro len h
    cases h with
    | multi t len e hne hreq hg =>
      cases hg with
      | seqReady len n1 e1 e2 h1 h2 g1 g2 hr =>
        have l1 := ih1 n1 g1
        have l2 := ih2 (len - n1) g2
        simp only [Minecraft.lineCount, Minecraft.countIfElse, l1, l2]
        omega
  | unpredIfCondition e ih =>
    intro len h
    cases h with
    | multi t len e2 hne hreq hg =>
      cases hg with
      | ifCond len e hsub =>
        have hp := Minecraft.gen_pos _ _ hsub
        have l := ih (len - 2) hsub
        simp only [Minecraft.lineCount, Minecraft.countIfElse, l]
        omega
  | unpredIfElse e1 e2 ih1 ih2 =>
    intro len h
    cases h with
    | multi t len e hne hreq hg =>
      cases hg with
      | ifElse len k e1 e2 h1 h2 g1 g2 =>
        have l1 := ih1 k g1
        have l2 := ih2 (len - k) g2
        simp only [Minecraft.lineCount, Minecraft.countIfElse, l1, l2]
        omega
  | unpredWhileLoop e ih =>
    intro len h
    cases h with
    | multi t len e2 hne hreq hg =>
      cases hg with
      | whileLoop len e hsub =>
        have hp := Minecraft.gen_pos _ _ hsub
        have l := ih (len - 2) hsub
        simp only [Minecraft.lineCount, Minecraft.countIfElse, l]
        omega

/-- The same overshoot accounting at the level of each multi-line
class's own `random`. -/
theorem genFrom_line_count (t : Minecraft.GenTy) (len : ℕ)
    (e : Minecraft.MCExpr) (h : Minecraft.GenFrom t len e) :
    Minecraft.lineCount e = len + 3 * Minecraft.countIfElse e := by
  cases h with
  | whileLoop len e hsub =>
    have hp := Minecraft.gen_pos _ _ hsub
    have l := gen_line_count e (len - 2) hsub
    simp only [Minecraft.lineCount, Minecraft.countIfElse, l]
    omega
  | ifCond len e hsub =>
    have hp := Minecraft.gen_pos _ _ hsub
    have l := gen_line_count e (len - 2) hsub
    simp only [Minecraft.lineCount, Minecraft.countIfElse, l]
    omega
  | ifElse len k e1 e2 h1 h2 g1 g2 =>
    have l1 := gen_line_count e1 k g1
    have l2 := gen_line_count e2 (len - k) g2
    simp only [Minecraft.lineCount, Minecraft.countIfElse, l1, l2]
    omega
  | seqReady len n1 e1 e2 h1 h2 g1 g2 hr =>
    have l1 := gen_line_count e1 n1 g1
    have l2 := gen_line_count e2 (len - n1) g2
    simp only [Minecraft.lineCount, Minecraft.countIfElse, l1, l2]
    omega
  | seqUnpred len n1 e1 e2 h1 h2 g1 g2 hr =>
    have l1 := gen_line_count e1 n1 g1
    have l2 := gen_line_count e2 (len - n1) g2
    simp only [Minecraft.lineCount, Minecraft.countIfElse, l1, l2]
    omega

/-- C4: a possible outcome of `IfElseCondition.random(5, rng)` — the
requested length 5 is at the class's `required_lines()` minimum, the
`expr1_length` draw is necessarily 1, and `expr2` is drawn as a
`WhileLoop` around a two-subtask `Sequence` — unrolls to 8 lines, not
the requested 5: `expr2_length = length - expr1_length` fails to
reserve the 3 marker lines (`If`, `Else`, `EndIf`), so every
`IfElseCondition` overshoots by exactly 3. -/
theorem ifelse_random_length_bug :
    Minecraft.GenFrom .ifElseCond 5 Minecraft.c4Expr ∧
      Minecraft.lineCount Minecraft.c4Expr = 8 := by
  constructor
  · refine Minecraft.GenFrom.ifElse 5 1 _ _ (le_refl 1) (by decide)
      (Minecraft.Gen.subtask 0 (by decide)) ?_
    refine Minecraft.Gen.multi .whileLoop 4 _ (by decide) (by decide) ?_
    refine Minecraft.GenFrom.whileLoop 4 _ ?_
    refine Minecraft.Gen.multi .seq 2 _ (by decide) (by decide) ?_
    exact Minecraft.GenFrom.seqReady 2 1 _ _ (le_refl 1) (by decide)
      (Minecraft.Gen.subtask 1 (by decide)) (Minecraft.Gen.subtask 2 (by decide))
      rfl
  · rfl

namespace Recurrence

/-- The implicit zero padding of `F.conv1d(..., padding=2)`: two zeros
on each side of the input row. -/
def padInput (p : List ℚ) : List ℚ :=
  List.replicate 2 0 ++ p ++ List.replicate 2 0

/-- One output coefficient of the cross-correlation: the window of the
padded input starting at `j` dotted with the kernel. -/
def dotAt (xpad w : List ℚ) (j : ℕ) : ℚ :=
  ((List.range w.length).map (fun m => xpad.getD (j + m) 0 * w.getD m 0)).sum

/-- `F.conv1d(x.reshape(1, 1, -1), w.reshape(1, 1, -1), padding=2)` for
one instance: output length `len(x) + 2*2 - len(w) + 1`. -/
def convOut (p w : List ℚ) : List ℚ :=
  (List.range (p.length + 2 * 2 - w.length + 1)).map (dotAt (padInput p) w)

/-- The boundary folding of `batch_conv1d`
(`ppo/control_flow/recurrence.py` lines 26-27): `padded[:, 1] +=
padded[:, 0]` then `padded[:, -2] += padded[:, -1]`, performed in that
order on the convolution output. -/
def foldBoundary (out : List ℚ) : List ℚ :=
  let l1 := out.set 1 (out.getD 1 0 + out.getD 0 0)
  l1.set (l1.length - 2) (l1.getD (l1.length - 2) 0 + l1.getD (l1.length - 1) 0)

/-- `batch_conv1d` for one instance (`ppo/control_flow/recurrence.py`
lines 16-28): convolve with padding 2, fold the first output position
into the second and the last into the second-from-last, then return
`padded[:, 1:-1]`. -/
def batchConv1d (p w : List ℚ) : List ℚ :=
  ((foldBoundary (convOut p w)).drop 1).dropLast

theorem getD_set_ne (l : List ℚ) (i j : ℕ) (v : ℚ) (h : i ≠ j) :
    (l.set i v).getD j 0 = l.getD j 0 := by
  simp [List.getD, List.getElem?_set_ne h]

theorem getD_drop (l : List ℚ) (n j : ℕ) :
    (l.drop n).getD j 0 = l.getD (n + j) 0 := by
  simp [List.getD, List.getElem?_drop]

theorem sum_set_formula (l : List ℚ) (i : ℕ) (h : i < l.length) (v : ℚ) :
    (l.set i v).sum = l.sum - l.getD i 0 + v := by
  have hd : l.sum = (l.take i).sum + (l.getD i 0 + (l.drop (i + 1)).sum) := by
    conv_lhs => rw [← List.sum_take_add_sum_drop l i,
      List.drop_eq_getElem_cons h]
    rw [List.sum_cons, List.getD_eq_getElem l 0 h]
  rw [List.sum_set l i v, if_pos h, hd]
  ring

theorem sum_drop_one (l : List ℚ) (h : 0 < l.length) :
    (l.drop 1).sum = l.sum - l.getD 0 0 := by
  rw [← List.sum_take_add_sum_drop l 1]
  have ht : l.take 1 = [l.getD 0 0] := by
    cases l with
    | nil => simp at h
    | cons a t => simp [List.getD]
  rw [ht]
  simp

theorem sum_dropLast (l : List ℚ) (h : l ≠ []) :
    l.dropLast.sum = l.sum - l.getD (l.length - 1) 0 := by
  have hlt : l.length - 1 < l.length := by
    have := List.length_pos.mpr h
    omega
  have hlast : l.getD (l.length - 1) 0 = l.getLast h := by
    rw [List.getLast_eq_getElem]
    exact List.getD_eq_getElem l 0 hlt
  have hsum : l.sum = l.dropLast.sum + l.getLast h := by
    conv_lhs => rw [← List.dropLast_concat_getLast h]
    simp
  rw [hsum, hlast]
  ring

/-- Folding the boundaries and slicing off both ends preserves the
total of any row of length at least 3. -/
theorem foldSlice_sum (out : List ℚ) (h : 3 ≤ out.length) :
    ((foldBoundary out).drop 1).dropLast.sum = out.sum := by
  have h1 : 1 < out.length := by omega
  unfold foldBoundary
  set l1 := out.set 1 (out.getD 1 0 + out.getD 0 0) with hl1
  have hlen1 : l1.length = out.length := by simp [hl1]
  have hsum1 : l1.sum = out.sum + out.getD 0 0 := by
    rw [hl1, sum_set_formula out 1 h1]
    ring
  set l2 := l1.set (l1.length - 2)
    (l1.getD (l1.length - 2) 0 + l1.getD (l1.length - 1) 0) with hl2
  have hlen2 : l2.length = out.length := by simp [hl2, hlen1]
  have hg1 : l1.getD (out.length - 1) 0 = out.getD (out.length - 1) 0 := by
    rw [hl1]
    exact getD_set_ne out 1 (out.length - 1) _ (by omega)
  have hsum2 : l2.sum = out.sum + out.getD 0 0 + out.getD (out.length - 1) 0 := by
    rw [hl2, sum_set_formula l1 (l1.length - 2) (by omega)]
    rw [show l1.length - 1 = out.length - 1 by omega] at *
    rw [hg1, hsum1]
    ring
  have hg0 : l2.getD 0 0 = out.getD 0 0 := by
    rw [hl2, getD_set_ne _ _ _ _ (by rw [hlen1]; omega : l1.length - 2 ≠ 0), hl1,
      getD_set_ne _ _ _ _ (by omega : 1 ≠ 0)]
  have hglast : l2.getD (out.length - 1) 0 = out.getD (out.length - 1) 0 := by
    rw [hl2,
      getD_set_ne _ _ _ _ (by rw [hlen1]; omega : l1.length - 2 ≠ out.length - 1),
      hg1]
  have hdl : (l2.drop 1).length = out.length - 1 := by simp [hlen2]
  have hdrop : (l2.drop 1).sum = l2.sum - l2.getD 0 0 :=
    sum_drop_one l2 (by omega)
  have hne : l2.drop 1 ≠ [] := by
    intro hc
    have := congrArg List.length hc
    simp only [hdl, List.length_nil] at this
    omega
  rw [sum_dropLast _ hne, hdrop, hdl, hg0]
  have hle : (l2.drop 1).getD (out.length - 1 - 1) 0 = l2.getD (out.length - 1) 0 := by
    rw [getD_drop]
    congr 1
    omega
  rw [hle, hglast, hsum2]
  ring

/-- Under range sums, `getD` sums are `take` sums. -/
theorem sum_range_getD (l : List ℚ) (N : ℕ) :
    (∑ j in Finset.range N, l.getD j 0) = (l.take N).sum := by
  induction N with
  | zero => simp
  | succ n ih =>
    rw [Finset.sum_range_succ, ih, List.take_succ, List.sum_append]
    congr 1
    cases h : l[n]? <;> simp [List.getD, h]

/-- Total of the padded-convolution output for a length-3 kernel: the
product of the input total and the kernel total (padding 2 is full
padding for a size-3 kernel, so no window is dropped). -/
theorem convOut_sum_kernel3 (p : List ℚ) (w0 w1 w2 : ℚ) :
    (convOut p [w0, w1, w2]).sum = p.sum * (w0 + w1 + w2) := by
  have hdot : ∀ j, dotAt (padInput p) [w0, w1, w2] j =
      (padInput p).getD j 0 * w0 + (padInput p).getD (j + 1) 0 * w1 +
        (padInput p).getD (j + 2) 0 * w2 := by
    intro j
    show (((List.range 3).map _).sum) = _
    rw [show List.range 3 = [0, 1, 2] from rfl]
    simp [List.getD]
    ring
  have hlen : p.length + 2 * 2 - ([w0, w1, w2] : List ℚ).length + 1
      = p.length + 2 := by simp
  have hshift : ∀ m : ℕ, (∑ j in Finset.range (p.length + 2),
      (padInput p).getD (j + m) 0)
      = (((padInput p).drop m).take (p.length + 2)).sum := by
    intro m
    rw [← sum_range_getD]
    refine Finset.sum_congr rfl fun j _ => ?_
    rw [getD_drop]
    congr 1
    omega
  have htp1 : List.take (p.length + 1) p = p :=
    List.take_of_length_le (by omega)
  have htp2 : List.take (p.length + 2) p = p :=
    List.take_of_length_le (by omega)
  have h0 : (((padInput p).drop 0).take (p.length + 2)).sum = p.sum := by
    show ((([(0 : ℚ), 0] ++ p ++ [0, 0]).drop 0).take (p.length + 2)).sum = p.sum
    rw [List.drop_zero, List.append_assoc, List.take_append_eq_append_take]
    simp [List.take_append_eq_append_take]
  have h1 : (((padInput p).drop 1).take (p.length + 2)).sum = p.sum := by
    show ((([(0 : ℚ), 0] ++ p ++ [0, 0]).drop 1).take (p.length + 2)).sum = p.sum
    rw [List.append_assoc]
    have hdrop1 : ([(0 : ℚ), 0] ++ (p ++ [0, 0])).drop 1
        = [(0 : ℚ)] ++ (p ++ [0, 0]) := rfl
    rw [hdrop1, List.take_append_eq_append_take]
    simp [List.take_append_eq_append_take, htp1]
  have h2 : (((padInput p).drop 2).take (p.length + 2)).sum = p.sum := by
    show ((([(0 : ℚ), 0] ++ p ++ [0, 0]).drop 2).take (p.length + 2)).sum = p.sum
    rw [List.append_assoc]
    have hdrop2 : ([(0 : ℚ), 0] ++ (p ++ [0, 0])).drop 2 = p ++ [0, 0] := rfl
    rw [hdrop2, List.take_append_eq_append_take]
    simp [htp2]
  have e1 : (∑ j in Finset.range (p.length + 2),
      (padInput p).getD (j + 1) 0) = p.sum := by rw [hshift 1]; exact h1
  have e2 : (∑ j in Finset.range (p.length + 2),
      (padInput p).getD (j + 2) 0) = p.sum := by rw [hshift 2]; exact h2
  have e0 : (∑ j in Finset.range (p.length + 2),
      (padInput p).getD j 0) = p.sum := by
    have hh := hshift 0
    simp only [Nat.add_zero] at hh
    rw [hh]
    exact h0
  unfold convOut
  rw [hlen]
  rw [show ((List.range (p.length + 2)).map
      (dotAt (padInput p) [w0, w1, w2])).sum
      = ∑ j in Finset.range (p.length + 2),
          dotAt (padInput p) [w0, w1, w2] j from rfl]
  simp only [hdot]
  rw [Finset.sum_add_distrib, Finset.sum_add_distrib, ← Finset.sum_mul,
    ← Finset.sum_mul, ← Finset.sum_mul, e0, e1, e2]
  ring

end Recurrence

/-- C8 counterexample: with a genuine length-5 probability kernel
(offsets −2..+2) the pointer update does lose mass: for the one-hot
distribution at line 0 of 5 and the deterministic move-left-one kernel
`[0, 0, 0, 1, 0]`, the returned row sums to 0, and it has only 3
entries, so it is not even shape-compatible with the
`p = dg * p_ + (1 - dg) * p` call site. -/
theorem batch_conv1d_counterexample :
    ([(1 : ℚ), 0, 0, 0, 0].sum = 1) ∧
      ([(0 : ℚ), 0, 0, 1, 0].sum = 1) ∧
      ([(0 : ℚ), 0, 0, 1, 0].length = 5) ∧
      (Recurrence.batchConv1d [1, 0, 0, 0, 0] [0, 0, 0, 1, 0]).sum = 0 ∧
      (Recurrence.batchConv1d [1, 0, 0, 0, 0] [0, 0, 0, 1, 0]).length = 3 := by
  refine ⟨by norm_num, by norm_num, rfl, ?_, ?_⟩
  · have hval : Recurrence.batchConv1d [1, 0, 0, 0, 0] [0, 0, 0, 1, 0]
        = [0, 0, 0] := by
      norm_num [Recurrence.batchConv1d, Recurrence.convOut,
        Recurrence.foldBoundary, Recurrence.dotAt, Recurrence.padInput,
        List.range_succ, List.getD, List.replicate]
    rw [hval]
    norm_num
  · rfl

/-- C8 amended: for every pointer distribution over `k ≥ 1` lines and
every length-3 probability kernel (relative offsets −1..+1 summing to
1 — the kernel length the call site's shape constraint forces, since
the folded-and-sliced output must have the input's length), the
`batch_conv1d` pointer update conserves total probability mass exactly:
padding 2 is full padding for a size-3 kernel, and the boundary folding
followed by dropping both boundary positions moves the off-end mass
onto the second-from-edge positions without losing any. -/
theorem batch_conv1d_amended (p w : List ℚ) (hw : w.length = 3)
    (hp : 1 ≤ p.length) (hps : p.sum = 1) (hws : w.sum = 1) :
    (Recurrence.batchConv1d p w).sum = 1 := by
  obtain ⟨w0, w1, w2, rfl⟩ := List.length_eq_three.mp hw
  have hconvlen : (Recurrence.convOut p [w0, w1, w2]).length = p.length + 2 := by
    simp [Recurrence.convOut]
  have hwsum : w0 + w1 + w2 = 1 := by
    have := hws
    simp only [List.sum_cons, List.sum_nil] at this
    linarith
  unfold Recurrence.batchConv1d
  rw [Recurrence.foldSlice_sum _ (by omega), Recurrence.convOut_sum_kernel3,
    hps, hwsum]
  ring

/-- Witness for `batch_conv1d_amended`: the one-hot row `[1, 0]` with
the stay kernel `[0, 1, 0]`. -/
theorem batch_conv1d_amended_witness :
    (Recurrence.batchConv1d [1, 0] [0, 1, 0]).sum = 1 :=
  batch_conv1d_amended [1, 0] [0, 1, 0] rfl (by norm_num) (by norm_num)
    (by norm_num)

namespace Starcraft

/-- The three workers (`Worker` enum, values 1..3 from `auto()`). -/
inductive Worker where
  | W1
  | W2
  | W3
deriving DecidableEq, Repr

/-- The enum value assigned by `auto()`. -/
def Worker.value : Worker → ℕ
  | .W1 => 1
  | .W2 => 2
  | .W3 => 3

/-- `Worker.to_int`: `self.value - 1`. -/
def Worker.toInt (w : Worker) : ℕ := w.value - 1

/-- `Worker.parse(n) = Worker(n + 1)`; only called on `n` inside
`Worker.space()` (`0 ≤ n < 3`), where the catch-all cannot fire. -/
def Worker.parse : ℕ → Worker
  | 0 => .W1
  | 1 => .W2
  | _ => .W3

/-- `Resource` enum: `MINERALS`, `GAS`. -/
inductive Resource where
  | minerals
  | gas
deriving DecidableEq, Repr

/-- The full `Building` subclass catalog of
`starcraft/starcraft_data_types.py`. -/
inductive Building where
  | assimilator
  | cyberneticsCore
  | darkShrine
  | fleetBeacon
  | forge
  | gateway
  | nexus
  | photonCannon
  | pylon
  | roboticsBay
  | roboticsFacility
  | starGate
  | templarArchives
  | twilightCouncil
deriving DecidableEq, Repr

/-- The live `Buildings` roster (the commented-out entries excluded),
in declaration order; this order drives all integer encodings. -/
def Buildings : List Building :=
  [.assimilator, .nexus, .roboticsFacility, .starGate, .templarArchives,
   .twilightCouncil]

/-- `Building.to_int`: `Buildings.index(self)` (Python raises on a
building outside the roster; `indexOf` then returns the roster length,
and the theorems restrict to roster members). -/
def Building.toInt (b : Building) : ℕ := Buildings.indexOf b

/-- `Building.parse(n) = Buildings[n]`; only called on `n` inside
`Building.space()`, where the default cannot fire. -/
def Building.parse (n : ℕ) : Building := Buildings.getD n .assimilator

/-- The full `Unit` subclass catalog. -/
inductive Unit where
  | adept
  | carrier
  | colossus
  | darkTemplar
  | disruptor
  | highTemplar
  | immortal
  | observer
  | oracle
  | phoenix
  | sentry
  | stalker
  | tempest
  | voidRay
  | warpPrism
  | zealot
deriving DecidableEq, Repr

/-- The live `Units` roster (commented-out entries excluded). -/
def Units : List Unit :=
  [.adept, .carrier, .colossus, .darkTemplar, .disruptor, .highTemplar]

/-- `Unit.to_int`: `Units.index(self)`. -/
def Unit.toInt (u : Unit) : ℕ := Units.indexOf u

/-- `Unit.parse(n) = Units[n]`. -/
def Unit.parse (n : ℕ) : Unit := Units.getD n .adept

/-- `Coord` action component: a grid coordinate.  The module-level
`WORLD_SIZE` is passed explicitly. -/
structure Coord where
  i : ℕ
  j : ℕ
deriving DecidableEq, Repr

/-- `Coord.to_int`: `np.ravel_multi_index((i, j), (W, W))`, i.e.
row-major flattening. -/
def Coord.toInt (W : ℕ) (c : Coord) : ℕ := c.i * W + c.j

/-- `Coord.parse`: `np.unravel_index(n, (W, W))`. -/
def Coord.parse (W n : ℕ) : Coord := ⟨n / W, n % W⟩

/-- `CompoundAction`: up to one each of worker/building/coord/unit, in
field declaration order. -/
structure CompoundAction where
  worker : Option Worker := none
  building : Option Building := none
  coord : Option Coord := none
  unit : Option Unit := none
deriving DecidableEq, Repr

/-- `CompoundAction.to_input_int` (lines 509-519): walk the fields in
declaration order with a running base of `1` plus the space sizes of
the earlier component classes (`Worker` = 3, `Building` = 6,
`Coord` = W², `Unit` = 6); the first set field yields
`base + value.to_int()`; an all-absent action yields 0. -/
def CompoundAction.toInputInt (W : ℕ) (a : CompoundAction) : ℕ :=
  match a.worker with
  | some w => 1 + w.toInt
  | none =>
    match a.building with
    | some b => 1 + 3 + b.toInt
    | none =>
      match a.coord with
      | some c => 1 + 3 + Buildings.length + c.toInt W
      | none =>
        match a.unit with
        | some u => 1 + 3 + Buildings.length + W * W + u.toInt
        | none => 0

/-- `CompoundAction.parse` (lines 484-502): value 0 is the all-absent
action; otherwise `parse_alternatives(value - 1, Worker, Building,
Coord, Unit)` walks the classes, parsing with the first class whose
space contains the remainder and subtracting each passed space size
(running out of classes raises in Python and cannot happen for an
in-range value; here the final fallthrough returns the all-absent
action). -/
def CompoundAction.parse (W value : ℕ) : CompoundAction :=
  if 0 < value then
    let n0 := value - 1
    if n0 < 3 then ⟨some (Worker.parse n0), none, none, none⟩
    else
      let n1 := n0 - 3
      if n1 < Buildings.length then ⟨none, some (Building.parse n1), none, none⟩
      else
        let n2 := n1 - Buildings.length
        if n2 < W * W then ⟨none, none, some (Coord.parse W n2), none⟩
        else
          let n3 := n2 - W * W
          if n3 < Units.length then ⟨none, none, none, some (Unit.parse n3)⟩
          else ⟨none, none, none, none⟩
  else ⟨none, none, none, none⟩

/-- Number of components set in a `CompoundAction`. -/
def CompoundAction.numSet (a : CompoundAction) : ℕ :=
  (if a.worker.isSome then 1 else 0) + (if a.building.isSome then 1 else 0) +
    (if a.coord.isSome then 1 else 0) + (if a.unit.isSome then 1 else 0)

/-- Python `any(astuple(compound_action))`: each set component is a
truthy value under `astuple` (enums and objects are truthy, and a
`Coord` dataclass becomes a non-empty tuple, which is truthy even for
`Coord(0, 0)`), so this is exactly "some field is set". -/
def CompoundAction.anyComponents (a : CompoundAction) : Bool :=
  a.worker.isSome || a.building.isSome || a.coord.isSome || a.unit.isSome

/-- Completed/pending building maps: `astuple` coordinate keys to
buildings. -/
def BuildingPositions : Type := List ((ℕ × ℕ) × Building)

/-- The `ActionStage` state machine's states (each a frozen dataclass).
`WorkerCoordAction`, `BuildingCoordAction` and `UnitAction` subclass
`InitialAction` and inherit its `_update`. -/
inductive ActionStage where
  | initialAction
  | workerAction (worker : Worker)
  | buildingAction (building : Building)
  | workerCoordAction (worker : Worker) (coord : Coord)
  | workerBuildingAction (worker : Worker) (building : Building)
  | buildingCoordAction (worker : Worker) (building : Building) (coord : Coord)
  | unitAction (building : Building) (unit : Unit)
deriving DecidableEq, Repr

/-- `InitialAction._update` (lines 700-709): a selected worker opens a
`WorkerAction`; a selected coordinate carrying a completed building
opens a `BuildingAction`; anything else falls back to `InitialAction`. -/
def initialUpdate (ca : CompoundAction) (bp : BuildingPositions) : ActionStage :=
  match ca.worker with
  | some w => .workerAction w
  | none =>
    match ca.coord with
    | some c =>
      match List.lookup (c.i, c.j) bp with
      | some b => .buildingAction b
      | none => .initialAction
    | none => .initialAction

/-- The per-stage `_update` dispatch.  Python `assert` statements are
embedded as `.error ()`.  `WorkerAction._update` (lines 763-775) sends
a coordinate to `WorkerCoordAction`, a building to
`WorkerBuildingAction`, and nothing back to `InitialAction`;
`BuildingAction._update` (lines 814-819) sends a unit to `UnitAction`;
`WorkerBuildingAction._update` (lines 890-898) sends a coordinate to
`BuildingCoordAction`; the `InitialAction` subclasses inherit
`initialUpdate`. -/
def stageUpdate (s : ActionStage) (ca : CompoundAction)
    (bp : BuildingPositions) : Except PUnit ActionStage :=
  match s with
  | .initialAction => .ok (initialUpdate ca bp)
  | .workerCoordAction _ _ => .ok (initialUpdate ca bp)
  | .buildingCoordAction _ _ _ => .ok (initialUpdate ca bp)
  | .unitAction _ _ => .ok (initialUpdate ca bp)
  | .workerAction w =>
    match ca.coord, ca.building with
    | none, none =>
      if ca.worker.isSome then .error ⟨⟩ else .ok .initialAction
    | some c, _ =>
      if ca.worker.isSome || ca.building.isSome then .error ⟨⟩
      else .ok (.workerCoordAction w c)
    | none, some b =>
      if ca.worker.isSome || ca.coord.isSome then .error ⟨⟩
      else .ok (.workerBuildingAction w b)
  | .buildingAction b =>
    match ca.unit with
    | none => .ok .initialAction
    | some u => .ok (.unitAction b u)
  | .workerBuildingAction w b =>
    if ca.worker.isSome || ca.building.isSome then .error ⟨⟩
    else
      match ca.coord with
      | none => .ok .initialAction
      | some c => .ok (.buildingCoordAction w b c)

/-- `ActionStage.__update` (lines 651-656): an all-absent compound
action collapses every stage to `InitialAction`; otherwise the
stage-specific `_update` runs. -/
def updateStage (s : ActionStage) (ca : CompoundAction)
    (bp : BuildingPositions) : Except PUnit ActionStage :=
  if ca.anyComponents = false then .ok .initialAction
  else stageUpdate s ca bp

/-- `dependency in [*building_positions.values(), None]` — the
dependency is met when it is `None` or among the completed buildings. -/
def depMet (dependencies : Building → Option Building)
    (bp : BuildingPositions) (b : Building) : Bool :=
  match dependencies b with
  | none => true
  | some d => (bp.map Prod.snd).contains d

/-- `BuildingCoordAction.invalid` (lines 945-975): dependency check,
then occupancy of the merged completed/pending maps, then the
Assimilator-on-gas rule, else the no-building-on-resource rule.  The
reason strings are abbreviated (only their presence matters). -/
def buildingCoordInvalid (dependencies : Building → Option Building)
    (bp pp : BuildingPositions) (positions : Resource → ℕ × ℕ)
    (building : Building) (coord : ℕ × ℕ) : Option String :=
  if depMet dependencies bp building = false then some "Dependency not met"
  else if (List.lookup coord bp).isSome || (List.lookup coord pp).isSome then
    some "coord occupied"
  else if building = .assimilator then
    if coord = positions .gas then none
    else some "Assimilator not built on gas"
  else if coord = positions .gas ∨ coord = positions .minerals then
    some "Building built on resource"
  else none

/-- `np.clip(delta, -1, 1)` on one axis. -/
def clip1 (x : ℤ) : ℤ := max (-1) (min 1 x)

/-- `move_from(origin, toward)` (lines 25-32): one Chebyshev-clipped
step from `origin` toward `toward`. -/
def moveFrom (origin toward : ℤ × ℤ) : ℤ × ℤ :=
  (origin.1 + clip1 (toward.1 - origin.1), origin.2 + clip1 (toward.2 - origin.2))

/-- Result of one `Resource.execute` call: the (mutated) worker
positions and carrying map, and whether the call raised. -/
structure ResExecResult where
  workerPositions : Worker → ℤ × ℤ
  carrying : Worker → Option Resource
  raised : Bool

/-- `Resource.execute` (lines 225-258): when the worker carries
nothing, step it toward the resource and, upon arrival, set `carrying`;
the `raise NotImplementedError` on line 243 sits at function level (the
deposit half of the cycle is commented out below it), so it executes
unconditionally after the mutations. -/
def resourceExecute (self : Resource) (assignee : Worker)
    (positions : Worker → ℤ × ℤ) (resourcePositions : Resource → ℤ × ℤ)
    (carrying : Worker → Option Resource) : ResExecResult :=
  let workerPos := positions assignee
  match carrying assignee with
  | none =>
    let resourcePos := resourcePositions self
    let newPos := moveFrom workerPos resourcePos
    let positions2 := fun w => if w = assignee then newPos else positions w
    let carrying2 :=
      if newPos = resourcePos then
        fun w => if w = assignee then some self else carrying w
      else carrying
    { workerPositions := positions2, carrying := carrying2, raised := true }
  | some _ =>
    { workerPositions := positions, carrying := carrying, raised := true }

/-- A worker at the origin carrying nothing, harvesting minerals at
`(2, 2)`. -/
def c5Far : ResExecResult :=
  resourceExecute .minerals .W1 (fun _ => (0, 0)) (fun _ => (2, 2))
    (fun _ => none)

/-- A worker one diagonal step away from the minerals, carrying
nothing. -/
def c5Near : ResExecResult :=
  resourceExecute .minerals .W1 (fun _ => (1, 1)) (fun _ => (2, 2))
    (fun _ => none)

end Starcraft

/-- C7: from every defined `ActionStage`, an update carrying an
all-absent `CompoundAction` (no worker, building, coord or unit)
collapses the state machine back to `InitialAction` — the universal
cancel transition of `ActionStage.__update`. -/
theorem action_stage_cancel (s : Starcraft.ActionStage)
    (bp : Starcraft.BuildingPositions) :
    Starcraft.updateStage s ⟨none, none, none, none⟩ bp
        = .ok .initialAction := by
  cases s <;> rfl

/-- C5: `Resource.execute` on a worker carrying nothing does apply the
claimed movement semantics — one Chebyshev-clipped step toward the
resource, with `carrying` set on arrival — but it then always raises
`NotImplementedError`, because the raise sits at function level instead
of inside the commented-out carrying branch: evaluated at the failing
input (worker `W1` at the origin, minerals at `(2, 2)`, carrying
nothing) the call moves the worker to `(1, 1)` and still raises; from
one step away it arrives, starts carrying, and still raises. -/
theorem resource_execute_always_raises :
    Starcraft.c5Far.raised = true ∧
      Starcraft.c5Far.workerPositions .W1 = (1, 1) ∧
      Starcraft.c5Far.carrying .W1 = none ∧
      Starcraft.c5Near.raised = true ∧
      Starcraft.c5Near.workerPositions .W1 = (2, 2) ∧
      Starcraft.c5Near.carrying .W1 = some .minerals :=
  ⟨rfl, rfl, rfl, rfl, rfl, rfl⟩

/-- C6: `BuildingCoordAction.invalid` returns a rejection reason
whenever the coordinate is already occupied in the union of completed
and pending building positions, or an Assimilator is aimed anywhere but
the gas tile, or a non-Assimilator is aimed at the gas or minerals
tile; and it returns `None` when the dependency is met and none of
those hold. -/
theorem building_coord_invalid_cases
    (deps : Starcraft.Building → Option Starcraft.Building)
    (bp pp : Starcraft.BuildingPositions)
    (positions : Starcraft.Resource → ℕ × ℕ)
    (b : Starcraft.Building) (coord : ℕ × ℕ) :
    ((((List.lookup coord bp).isSome ∨ (List.lookup coord pp).isSome) ∨
        (b = .assimilator ∧ coord ≠ positions .gas) ∨
        (b ≠ .assimilator ∧
          (coord = positions .gas ∨ coord = positions .minerals))) →
      (Starcraft.buildingCoordInvalid deps bp pp positions b coord).isSome
        = true) ∧
    ((Starcraft.depMet deps bp b = true ∧
        List.lookup coord bp = none ∧ List.lookup coord pp = none ∧
        ¬(b = .assimilator ∧ coord ≠ positions .gas) ∧
        ¬(b ≠ .assimilator ∧
          (coord = positions .gas ∨ coord = positions .minerals))) →
      Starcraft.buildingCoordInvalid deps bp pp positions b coord = none) := by
  constructor
  · intro h
    unfold Starcraft.buildingCoordInvalid
    split_ifs with h1 h2 h3 h4 h5 <;> simp_all <;> tauto
  · rintro ⟨hdep, hbp, hpp, hassim, hres⟩
    unfold Starcraft.buildingCoordInvalid
    split_ifs with h1 h2 h3 h4 h5 <;> simp_all <;> tauto

/-- Witness for `building_coord_invalid_cases`: a Nexus aimed at an
already-occupied coordinate is rejected, and an Assimilator aimed
exactly at the free gas tile is accepted. -/
theorem building_coord_invalid_cases_witness :
    ((Starcraft.buildingCoordInvalid (fun _ => none) [((0, 0), .nexus)] []
        (fun _ => (1, 1)) .nexus (0, 0)).isSome = true) ∧
      Starcraft.buildingCoordInvalid (fun _ => none) [((0, 0), .nexus)] []
        (fun r => match r with | .gas => (1, 1) | .minerals => (2, 2))
        .assimilator (1, 1) = none := by
  constructor
  · exact (building_coord_invalid_cases (fun _ => none) [((0, 0), .nexus)] []
      (fun _ => (1, 1)) .nexus (0, 0)).1 (Or.inl (Or.inl (by decide)))
  · exact (building_coord_invalid_cases (fun _ => none) [((0, 0), .nexus)] []
      (fun r => match r with | .gas => (1, 1) | .minerals => (2, 2))
      .assimilator (1, 1)).2 ⟨by decide, by decide, by decide, by decide,
        by decide⟩

/-- Row-major unravel inverts ravel for in-range coordinates. -/
theorem coord_roundtrip (W i j : ℕ) (hi : i < W) (hj : j < W) :
    Starcraft.Coord.parse W (Starcraft.Coord.toInt W ⟨i, j⟩) = (⟨i, j⟩ :
      Starcraft.Coord) := by
  have hW : 0 < W := lt_of_le_of_lt (Nat.zero_le j) hj
  unfold Starcraft.Coord.parse Starcraft.Coord.toInt
  have hcomm : i * W + j = W * i + j := by ring
  congr 1
  · rw [hcomm, Nat.mul_add_div hW, Nat.div_eq_of_lt hj]
    omega
  · rw [hcomm, Nat.mul_add_mod, Nat.mod_eq_of_lt hj]


/-- In-range coordinates ravel below `W * W`. -/
theorem coord_toInt_lt (W i j : ℕ) (hi : i < W) (hj : j < W) :
    Starcraft.Coord.toInt W ⟨i, j⟩ < W * W := by
  show i * W + j < W * W
  calc i * W + j < i * W + W := by omega
  _ = (i + 1) * W := by ring
  _ ≤ W * W := Nat.mul_le_mul_right W hi

/-- Parsing an integer in the coordinate sub-range. -/
theorem parse_coord_range (W x : ℕ) (hx : x < W * W) :
    Starcraft.CompoundAction.parse W (1 + 3 + Starcraft.Buildings.length + x)
      = ⟨none, none, some (Starcraft.Coord.parse W x), none⟩ := by
  unfold Starcraft.CompoundAction.parse
  simp only [show Starcraft.Buildings.length = 6 from rfl,
    show Starcraft.Units.length = 6 from rfl]
  rw [if_pos (by omega), if_neg (by omega), if_neg (by omega),
    if_pos (by omega : 1 + 3 + 6 + x - 1 - 3 - 6 < W * W)]
  rw [show 1 + 3 + 6 + x - 1 - 3 - 6 = x from by omega]

/-- Parsing an integer in the unit sub-range. -/
theorem parse_unit_range (W x : ℕ) (hx : x < Starcraft.Units.length) :
    Starcraft.CompoundAction.parse W
        (1 + 3 + Starcraft.Buildings.length + W * W + x)
      = ⟨none, none, none, some (Starcraft.Unit.parse x)⟩ := by
  unfold Starcraft.CompoundAction.parse
  simp only [show Starcraft.Buildings.length = 6 from rfl,
    show Starcraft.Units.length = 6 from rfl] at hx ⊢
  rw [if_pos (by omega), if_neg (by omega), if_neg (by omega),
    if_neg (by omega : ¬(1 + 3 + 6 + W * W + x - 1 - 3 - 6 < W * W)),
    if_pos (by omega : 1 + 3 + 6 + W * W + x - 1 - 3 - 6 - W * W < 6)]
  rw [show 1 + 3 + 6 + W * W + x - 1 - 3 - 6 - W * W = x from by omega]

/-- C10: for every `CompoundAction` with at most one component set
(and that component in range: the coordinate inside the `W × W` board,
the building/unit in the live roster), parsing the integer produced by
`to_input_int` recovers the action exactly; the integer 0 is reserved
for the all-absent action in both directions. -/
theorem compound_action_roundtrip (W : ℕ) (a : Starcraft.CompoundAction)
    (hone : a.numSet ≤ 1)
    (hc : ∀ c, a.coord = some c → c.i < W ∧ c.j < W)
    (hb : ∀ b, a.building = some b → b ∈ Starcraft.Buildings)
    (hu : ∀ u, a.unit = some u → u ∈ Starcraft.Units) :
    Starcraft.CompoundAction.parse W (Starcraft.CompoundAction.toInputInt W a)
        = a ∧
      Starcraft.CompoundAction.toInputInt W ⟨none, none, none, none⟩ = 0 ∧
      Starcraft.CompoundAction.parse W 0 = ⟨none, none, none, none⟩ := by
  refine ⟨?_, rfl, rfl⟩
  obtain ⟨w, b, c, u⟩ := a
  match w, b, c, u with
  | some w, none, none, none =>
    cases w <;> rfl
  | none, some b, none, none =>
    have hmem := hb b rfl
    fin_cases hmem <;> rfl
  | none, none, some c, none =>
    obtain ⟨hi, hj⟩ := hc c rfl
    obtain ⟨i, j⟩ := c
    show Starcraft.CompoundAction.parse W
      (1 + 3 + Starcraft.Buildings.length + Starcraft.Coord.toInt W ⟨i, j⟩) = _
    rw [parse_coord_range W (Starcraft.Coord.toInt W ⟨i, j⟩)
      (coord_toInt_lt W i j hi hj), coord_roundtrip W i j hi hj]
  | none, none, none, some u =>
    have hmem := hu u rfl
    have hidx : Starcraft.Unit.toInt u < Starcraft.Units.length := by
      fin_cases hmem <;> decide
    show Starcraft.CompoundAction.parse W
      (1 + 3 + Starcraft.Buildings.length + W * W + Starcraft.Unit.toInt u) = _
    rw [parse_unit_range W (Starcraft.Unit.toInt u) hidx]
    have hup : Starcraft.Unit.parse (Starcraft.Unit.toInt u) = u := by
      fin_cases hmem <;> rfl
    rw [hup]
  | none, none, none, none => rfl
  | some _, some _, _, _ =>
    exfalso
    simp [Starcraft.CompoundAction.numSet] at hone
    all_goals split_ifs at hone <;> omega
  | some _, _, some _, _ =>
    exfalso
    simp [Starcraft.CompoundAction.numSet] at hone
    all_goals split_ifs at hone <;> omega
  | some _, _, _, some _ =>
    exfalso
    simp [Starcraft.CompoundAction.numSet] at hone
    all_goals split_ifs at hone <;> omega
  | _, some _, some _, _ =>
    exfalso
    simp [Starcraft.CompoundAction.numSet] at hone
    all_goals split_ifs at hone <;> omega
  | _, some _, _, some _ =>
    exfalso
    simp [Starcraft.CompoundAction.numSet] at hone
    all_goals split_ifs at hone <;> omega
  | _, _, some _, some _ =>
    exfalso
    simp [Starcraft.CompoundAction.numSet] at hone
    all_goals split_ifs at hone <;> omega

/-- Witness for `compound_action_roundtrip`: the single-coordinate
action `(1, 1)` on a 2 × 2 board. -/
theorem compound_action_roundtrip_witness :
    Starcraft.CompoundAction.parse 2
        (Starcraft.CompoundAction.toInputInt 2 ⟨none, none, some ⟨1, 1⟩, none⟩)
      = ⟨none, none, some ⟨1, 1⟩, none⟩ :=
  (compound_action_roundtrip 2 ⟨none, none, some ⟨1, 1⟩, none⟩ (by decide)
    (fun c hc => by cases hc; exact ⟨by decide, by decide⟩)
    (fun b hb => by cases hb) (fun u hu => by cases hu)).1
